import Mathlib

/-!
Shallow embedding of `src/optimize_parameters.py` (repository ITAL): the two
cross-validation evaluators `cross_validate_gp` and `cross_validate_fewshot`
and the coordinate-ascent hyper-parameter search `optimize_gp_params`.

Modelling conventions:
* Python floats (hyper-parameter values and performance scores) are modelled
  as rationals.
* The external GaussianProcess predictor (spec section 6) is an abstract
  function argument; sklearn's metric functions `average_precision_score` and
  `sqrt(mean_squared_error(..))` are abstract function arguments `ap` and
  `rmse`.
* The external sklearn fold splitters (`KFold` / `StratifiedKFold`) are not
  part of this repository; they are modelled from the spec's description of
  the Fold Partitioner (deterministic, seeded, k disjoint train/test pairs).
* Stateful Python loops become folds / fuel-based recursion; a Python
  exception becomes `Option.none` or `Except.error`.
-/

set_option autoImplicit false

namespace OptimizeParameters

/-- Scores and hyper-parameter values (Python floats) are modelled as
rationals. -/
abbrev Score := ℚ

/-- Modelled from the spec: the seed actually used by the external sklearn
fold splitter (not part of this repository).  sklearn draws from the ambient
random state only when no fixed `random_state` is supplied; both evaluators
pass `random_state = 0` (src lines 56 and 92). -/
def kfold_seed (randomState : Option Nat) (ambient : Nat) : Nat :=
  randomState.getD ambient

/-- Modelled from the spec: the Fold Partitioner (the external sklearn
`KFold` / `StratifiedKFold` splitters, which are not part of this
repository): a deterministic, seeded splitter assigning the sample at
position `i` of the eligible list to test fold `(i + seed) % k`. -/
def fold_of (seed k i : Nat) : Nat := (i + seed) % k

/-- Modelled from the spec: the test side of fold `j` over `n` eligible
positions. -/
def test_fold (seed k n j : Nat) : List Nat :=
  (List.range n).filter (fun i => fold_of seed k i == j)

/-- Modelled from the spec: the train side of fold `j`, the complement of the
test side. -/
def train_fold (seed k n j : Nat) : List Nat :=
  (List.range n).filter (fun i => fold_of seed k i != j)

/-- Modelled from the spec: the full `k`-fold partition, `k` pairs of
(train positions, test positions) over `n` eligible positions.  No claim
depends on the stratified variant differing from the plain one, so both
sklearn splitters are modelled by the same partitioner. -/
def kfold_split (seed k n : Nat) : List (List Nat × List Nat) :=
  (List.range k).map (fun j => (train_fold seed k n j, test_fold seed k n j))

/-- Modelled from the spec: the validation performed by the external sklearn
splitters, which raise (and nothing in this module catches the exception)
when `k < 2`, when the eligible set is empty, or when `k` exceeds the number
of eligible samples. -/
def fold_split_invalid (k n : Nat) : Bool :=
  decide (k < 2) || decide (n = 0) || decide (n < k)

/-- The eligible sample indices, named `not_unnameable` in the source
(src lines 48-51 and 84-87): all indices for a regression task (relevance is
`None`), otherwise exactly the indices whose relevance entry is nonzero. -/
def not_unnameable (n : Nat) (rel : Option (List Int)) : List Nat :=
  match rel with
  | none => List.range n
  | some r => (List.range n).filter (fun i => r.getD i 0 != 0)

/-- The external GaussianProcess predictor (spec section 6), abstracted as a
function from the kernel configuration (the `gp_params` passed to the
constructor, the precomputed distance matrix being a fixed function of the
dataset and hence absorbed), the fitted indices with their targets, and the
query indices, to the predictions aligned with the query order. -/
abbrev GPPredict := List (String × Score) → List Nat → List Score → List Nat → List Score

/-- Maps a fold's (train, test) position pair to global sample indices through
the eligible list, as in `not_unnameable[train_ind]` / `not_unnameable[test_ind]`
(src lines 58-59 and 94-95). -/
def fold_global (elig : List Nat) (pr : List Nat × List Nat) : List Nat × List Nat :=
  (pr.1.map (fun p => elig.getD p 0), pr.2.map (fun p => elig.getD p 0))

/-- The global (train, test) index pairs on which both evaluators fit and
query the predictor. -/
def cv_fold_calls (rel : Option (List Int)) (n k seed : Nat) : List (List Nat × List Nat) :=
  (kfold_split seed k (not_unnameable n rel).length).map
    (fold_global (not_unnameable n rel))

/-- The targets handed to the predictor when fitting the fold positions `pos`
(src lines 58 and 94): the relevance of the corresponding global indices for
retrieval, or the regression targets indexed by fold position. -/
def fit_targets (rel : Option (List Int)) (y : List Score) (elig : List Nat)
    (pos : List Nat) : List Score :=
  match rel with
  | some r => pos.map (fun p => ((r.getD (elig.getD p 0) 0 : Int) : Score))
  | none => pos.map (fun p => y.getD p 0)

/-- Writes a list of (position, value) pairs into the score array in order. -/
def write_pairs (arr : List (Option Score)) (l : List (Nat × Score)) :
    List (Option Score) :=
  l.foldl (fun a pv => a.set pv.1 (some pv.2)) arr

/-- One write of the pooled score array, `scores[test_ind] = gp.predict_stored(..)`
(src line 59). -/
def write_scores (arr : List (Option Score)) (pos : List Nat)
    (vals : List Score) : List (Option Score) :=
  write_pairs arr (pos.zip vals)

/-- The pooled per-sample prediction array of `cross_validate_gp`
(src lines 53-59), with uninitialised entries modelled as `none`. -/
def pooled_scores (pred : GPPredict) (gp_params : List (String × Score))
    (rel : Option (List Int)) (y : List Score) (k seed : Nat)
    (elig : List Nat) : List (Option Score) :=
  (kfold_split seed k elig.length).foldl
    (fun arr pr =>
      write_scores arr pr.2
        (pred gp_params (fold_global elig pr).1 (fit_targets rel y elig pr.1)
          (fold_global elig pr).2))
    (List.replicate elig.length none)

/-- The standard k-fold evaluator `cross_validate_gp` (src lines 28-61),
given that the external splitter accepts the request: pool the held-out
predictions over the eligible set and compute one aggregate metric, average
precision for retrieval or the negated root-mean-squared error for
regression. -/
def cross_validate_gp_core (pred : GPPredict)
    (ap : List Int → List Score → Score)
    (rmse : List Score → List Score → Score) (y : List Score) (n : Nat)
    (rel : Option (List Int)) (gp_params : List (String × Score))
    (k seed : Nat) : Score :=
  let elig := not_unnameable n rel
  let scores := (pooled_scores pred gp_params rel y k seed elig).map
    (fun o => o.getD 0)
  match rel with
  | some r => ap (elig.map (fun i => r.getD i 0)) scores
  | none => -(rmse y scores)

/-- The per-fold scores of `cross_validate_fewshot` (src lines 93-96): each
fold fits the predictor on the fold's test positions and evaluates it, with
the task metric, on the fold's train positions. -/
def fewshot_fold_scores (pred : GPPredict)
    (ap : List Int → List Score → Score)
    (rmse : List Score → List Score → Score) (y : List Score) (n : Nat)
    (rel : Option (List Int)) (gp_params : List (String × Score))
    (k seed : Nat) : List Score :=
  let elig := not_unnameable n rel
  (kfold_split seed k elig.length).map (fun pr =>
    let scores := pred gp_params (fold_global elig pr).2
      (fit_targets rel y elig pr.2) (fold_global elig pr).1
    match rel with
    | some r => ap ((fold_global elig pr).1.map (fun i => r.getD i 0)) scores
    | none => -(rmse (pr.1.map (fun p => y.getD p 0)) scores))

/-- The few-shot evaluator `cross_validate_fewshot` (src lines 64-98), given
that the external splitter accepts the request: `np.mean` of the per-fold
scores, i.e. their sum divided by their number. -/
def cross_validate_fewshot_core (pred : GPPredict)
    (ap : List Int → List Score → Score)
    (rmse : List Score → List Score → Score) (y : List Score) (n : Nat)
    (rel : Option (List Int)) (gp_params : List (String × Score))
    (k seed : Nat) : Score :=
  let perf := fewshot_fold_scores pred ap rmse y n rel gp_params k seed
  perf.sum / (perf.length : Score)

/-- The standard evaluator with the external splitter's validation: an
`Except.error` models the sklearn exception propagating out of
`cross_validate_gp` uncaught.  `ambient` is the ambient random state that
sklearn would consult if no fixed seed were supplied; the source fixes
`random_state = 0` (src line 56). -/
def cross_validate_gp (pred : GPPredict) (ap : List Int → List Score → Score)
    (rmse : List Score → List Score → Score) (y : List Score) (n : Nat)
    (rel : Option (List Int)) (gp_params : List (String × Score)) (k : Nat)
    (ambient : Nat) : Except String Score :=
  if fold_split_invalid k (not_unnameable n rel).length then
    .error "cross-validation failed: insufficient eligible samples for the requested folds"
  else
    .ok (cross_validate_gp_core pred ap rmse y n rel gp_params k
      (kfold_seed (some 0) ambient))

/-- The few-shot evaluator with the external splitter's validation
(src line 92 fixes `random_state = 0`). -/
def cross_validate_fewshot (pred : GPPredict)
    (ap : List Int → List Score → Score)
    (rmse : List Score → List Score → Score) (y : List Score) (n : Nat)
    (rel : Option (List Int)) (gp_params : List (String × Score)) (k : Nat)
    (ambient : Nat) : Except String Score :=
  if fold_split_invalid k (not_unnameable n rel).length then
    .error "cross-validation failed: insufficient eligible samples for the requested folds"
  else
    .ok (cross_validate_fewshot_core pred ap rmse y n rel gp_params k
      (kfold_seed (some 0) ambient))

/-- The mutable state of the `while` loop of `optimize_gp_params`
(src lines 130-135): the current configuration (values in grid order), the
per-parameter changed flags, the index of the axis being swept, the
performance history dictionary (insertion ordered, keyed by full
configuration tuple), and the best performance so far (`none` models the
initial negative infinity). -/
structure OptState where
  cur_params : List Score
  changed : List Bool
  changing_param : Nat
  perf : List (List Score × Score)
  best_perf : Option Score
deriving DecidableEq, Repr

/-- Python dictionary assignment `d[key] = v`: an existing key keeps its
position and gets the new value, a new key is appended. -/
def py_dict_set (d : List (List Score × Score)) (key : List Score)
    (v : Score) : List (List Score × Score) :=
  if d.any (fun e => decide (e.1 = key)) then
    d.map (fun e => if e.1 = key then (key, v) else e)
  else d ++ [(key, v)]

/-- One comparison step of Python `max`: the best-so-far is replaced only on
a strict increase, so the first of several maximal elements wins. -/
def py_step {α : Type} (val : α → Score) (b v : α) : α :=
  if val b < val v then v else b

/-- Python `max(xs, key = val)`: the first element attaining the maximal
value, found by a left fold of `py_step`; `none` on an empty list (where
Python raises `ValueError`). -/
def py_max_by {α : Type} (val : α → Score) : List α → Option α
  | [] => none
  | x :: xs => some (xs.foldl (py_step val) x)

/-- The candidate configuration of src line 144: the current configuration
with the swept axis set to the candidate value. -/
def config_with (cur : List Score) (axis : Nat) (v : Score) : List Score :=
  cur.set axis v

/-- One axis sweep (src lines 142-152): evaluate every candidate of the
swept axis with all other parameters held at their current values, and
return the winning value with its score, `none` when the candidate list is
empty (where Python raises).  The source stores the scores in a dictionary
keyed by candidate value, which collapses duplicate candidates onto their
first occurrence; since equal candidates produce the identical configuration
and hence the identical score, and the argmax replaces its best only on a
strict increase, folding over the full candidate list selects the same value
and score as Python's `max` over the dictionary's keys. -/
def sweep_axis (cv : List Score → Score) (cands : List Score)
    (cur : List Score) (axis : Nat) : Option (Score × Score) :=
  match py_max_by (fun v => cv (config_with cur axis v)) cands with
  | none => none
  | some bv => some (bv, cv (config_with cur axis bv))

/-- The comparison `cur_perfs[best_val] < best_perf` of src line 154, with
`best_perf = -inf` (modelled `none`) comparing below every score. -/
def lt_best (sc : Score) (bp : Option Score) : Bool :=
  match bp with
  | none => false
  | some b => decide (sc < b)

/-- Outcome of one iteration of the `while` loop: a Python exception
(`err`), a `break` out of the loop with the resulting state (`broke`), or a
normal continuation (`next`). -/
inductive LoopOut where
  | err : LoopOut
  | broke : OptState → LoopOut
  | next : OptState → LoopOut
deriving DecidableEq, Repr

/-- One iteration of the `while` loop of `optimize_gp_params`
(src lines 140-167): sweep the current axis, break (keeping the state
unchanged) when the winner scores strictly below best-performance-so-far,
otherwise adopt the winner, update the changed flag (comparing against the
previous value), record the new configuration in the history, advance the
axis cyclically, and break after the update when the grid has fewer than two
parameters. -/
def opt_step (cv : List Score → Score) (grid : List (String × List Score))
    (s : OptState) : LoopOut :=
  let m := grid.length
  let cands := (grid.getD s.changing_param ("", [])).2
  match sweep_axis cv cands s.cur_params s.changing_param with
  | none => .err
  | some (bv, sc) =>
    if lt_best sc s.best_perf then .broke s
    else
      let changed := s.changed.set s.changing_param
        (decide (bv ≠ s.cur_params.getD s.changing_param 0))
      let cur := s.cur_params.set s.changing_param bv
      let perf := py_dict_set s.perf cur sc
      let s1 : OptState := ⟨cur, changed, (s.changing_param + 1) % m, perf, some sc⟩
      if m < 2 then .broke s1 else .next s1

/-- The `while any(changed)` loop (src line 140), driven by fuel; `none`
models both a Python exception inside the loop and fuel exhaustion. -/
def opt_loop (cv : List Score → Score) (grid : List (String × List Score)) :
    Nat → OptState → Option OptState
  | 0, _ => none
  | fuel + 1, s =>
    if s.changed.any id then
      match opt_step cv grid s with
      | .err => none
      | .broke s1 => some s1
      | .next s1 => opt_loop cv grid fuel s1
    else some s

/-- The final selection `max(perf.keys(), key = lambda p: perf[p])`
(src line 169): the earliest inserted history key attaining the maximal
recorded score. -/
def select_best (d : List (List Score × Score)) : Option (List Score) :=
  (py_max_by (fun e => e.2) d).map (fun e => e.1)

/-- The initial configuration `[init[p] for p in param_names]`
(src line 131). -/
def init_config (grid : List (String × List Score)) (init : String → Score) :
    List Score :=
  grid.map (fun g => init g.1)

/-- The initial loop state (src lines 130-135). -/
def init_state (grid : List (String × List Score)) (init : String → Score) :
    OptState :=
  ⟨init_config grid init, grid.map (fun _ => true), 0, [], none⟩

/-- The return statement of `optimize_gp_params` (src lines 169-170): the
best history entry zipped with the parameter names, and best-performance-
so-far, negated for regression tasks; `none` models the `ValueError` that
`max` raises on an empty history. -/
def opt_finish (grid : List (String × List Score)) (relGiven : Bool)
    (s : OptState) : Option (List (String × Score) × Score) :=
  match select_best s.perf, s.best_perf with
  | some bp, some b =>
    some ((grid.map (fun g => g.1)).zip bp, if relGiven then b else -b)
  | _, _ => none

/-- The coordinate-ascent optimizer `optimize_gp_params` (src lines 101-170)
over an abstract evaluator `cv` from a configuration (values in grid order)
to a score. -/
def optimize_gp_params (cv : List Score → Score)
    (grid : List (String × List Score)) (init : String → Score)
    (relGiven : Bool) (fuel : Nat) : Option (List (String × Score) × Score) :=
  (opt_loop cv grid fuel (init_state grid init)).bind (opt_finish grid relGiven)

/-- The evaluator chosen once for the whole run (src lines 146-149): the
candidate configuration, zipped with the parameter names, is handed to the
selected cross-validation evaluator. -/
def optimize_cv (pred : GPPredict) (ap : List Int → List Score → Score)
    (rmse : List Score → List Score → Score) (y : List Score) (n : Nat)
    (rel : Option (List Int)) (names : List String) (fewshot : Bool)
    (k seed : Nat) (cfg : List Score) : Score :=
  if fewshot then
    cross_validate_fewshot_core pred ap rmse y n rel (names.zip cfg) k seed
  else
    cross_validate_gp_core pred ap rmse y n rel (names.zip cfg) k seed

/-- The optimizer composed with the real evaluators and the external
splitter's validation.  The validation depends only on the relevance vector
and the fold count, never on the candidate configuration, so the first
evaluator call of the run raises exactly when this hoisted check fires, and
the uncaught exception yields no result (`Except.error`). -/
def optimize_gp_params_checked (pred : GPPredict)
    (ap : List Int → List Score → Score)
    (rmse : List Score → List Score → Score) (y : List Score) (n : Nat)
    (rel : Option (List Int)) (grid : List (String × List Score))
    (init : String → Score) (fewshot : Bool) (k fuel ambient : Nat) :
    Except String (Option (List (String × Score) × Score)) :=
  if fold_split_invalid k (not_unnameable n rel).length then
    .error "cross-validation failed: insufficient eligible samples for the requested folds"
  else
    .ok (optimize_gp_params
      (optimize_cv pred ap rmse y n rel (grid.map (fun g => g.1)) fewshot k
        (kfold_seed (some 0) ambient))
      grid init rel.isSome fuel)

/-- Written from the spec (claim C8): the stable argmax, the earliest listed
candidate attaining the maximal score. -/
def stable_argmax (cands : List Score) (score : Score → Score) : Option Score :=
  cands.find? (fun v => cands.all (fun w => decide (score w ≤ score v)))

/-- Written from the spec (claim C5): the score of one few-shot fold, the
predictor fitted on the fold's test partition and evaluated, with the task
metric, on the fold's train partition. -/
def fewshot_single_fold (pred : GPPredict)
    (ap : List Int → List Score → Score)
    (rmse : List Score → List Score → Score) (y : List Score)
    (rel : Option (List Int)) (gp_params : List (String × Score))
    (elig : List Nat) (pr : List Nat × List Nat) : Score :=
  let scores := pred gp_params (fold_global elig pr).2
    (fit_targets rel y elig pr.2) (fold_global elig pr).1
  match rel with
  | some r => ap ((fold_global elig pr).1.map (fun i => r.getD i 0)) scores
  | none => -(rmse (pr.1.map (fun p => y.getD p 0)) scores)

/-- Written from the spec (claim C5): the arithmetic mean of exactly `k`
per-fold few-shot scores. -/
def fewshot_claim_score (pred : GPPredict)
    (ap : List Int → List Score → Score)
    (rmse : List Score → List Score → Score) (y : List Score) (n : Nat)
    (rel : Option (List Int)) (gp_params : List (String × Score))
    (k seed : Nat) : Score :=
  let elig := not_unnameable n rel
  ((List.range k).map (fun j =>
    fewshot_single_fold pred ap rmse y rel gp_params elig
      ((kfold_split seed k elig.length).getD j ([], [])))).sum / (k : Score)

/-- Ordering on best-performance-so-far values, with the initial negative
infinity (`none`) below everything. -/
def bp_le (a b : Option Score) : Bool :=
  match a, b with
  | none, _ => true
  | some _, none => false
  | some x, some y => decide (x ≤ y)

/-! ### Properties of the Python argmax -/

theorem py_step_cases {α : Type} (val : α → Score) (b v : α) :
    py_step val b v = b ∨ py_step val b v = v := by
  unfold py_step
  split
  · right; rfl
  · left; rfl

theorem le_py_step_left {α : Type} (val : α → Score) (b v : α) :
    val b ≤ val (py_step val b v) := by
  unfold py_step
  split
  · exact le_of_lt (by assumption)
  · exact le_refl _

theorem le_py_step_right {α : Type} (val : α → Score) (b v : α) :
    val v ≤ val (py_step val b v) := by
  unfold py_step
  split
  · exact le_refl _
  · exact le_of_not_lt (by assumption)

theorem py_max_foldl_mem {α : Type} (val : α → Score) (xs : List α) :
    ∀ x : α, xs.foldl (py_step val) x ∈ x :: xs := by
  induction xs with
  | nil => intro x; simp
  | cons y ys ih =>
    intro x
    simp only [List.foldl_cons]
    have h := ih (py_step val x y)
    rcases List.mem_cons.mp h with h1 | h1
    · rcases py_step_cases val x y with h2 | h2
      · exact List.mem_cons.mpr (Or.inl (h1.trans h2))
      · exact List.mem_cons_of_mem _ (List.mem_cons.mpr (Or.inl (h1.trans h2)))
    · simp [List.mem_cons, h1]

theorem py_max_foldl_le {α : Type} (val : α → Score) (xs : List α) :
    ∀ x : α, ∀ a ∈ x :: xs, val a ≤ val (xs.foldl (py_step val) x) := by
  induction xs with
  | nil =>
    intro x a ha
    simp at ha
    subst ha
    simp
  | cons y ys ih =>
    intro x a ha
    simp only [List.foldl_cons]
    rcases List.mem_cons.mp ha with h1 | h1
    · subst h1
      calc val a ≤ val (py_step val a y) := le_py_step_left val a y
        _ ≤ _ := ih _ _ (List.mem_cons_self _ _)
    · rcases List.mem_cons.mp h1 with h2 | h2
      · subst h2
        calc val a ≤ val (py_step val x a) := le_py_step_right val x a
          _ ≤ _ := ih _ _ (List.mem_cons_self _ _)
      · exact ih (py_step val x y) a (List.mem_cons_of_mem _ h2)

theorem py_max_foldl_find? {α : Type} (val : α → Score) (xs : List α) :
    ∀ x : α,
      some (xs.foldl (py_step val) x) =
        (x :: xs).find? (fun v => (x :: xs).all (fun w => decide (val w ≤ val v))) := by
  induction xs with
  | nil =>
    intro x
    have hx : (([x].all fun w => decide (val w ≤ val x))) = true := by simp
    have h0 : (List.find? (fun v => [x].all fun w => decide (val w ≤ val v)) [x]) = some x :=
      List.find?_cons_of_pos _ hx
    rw [h0]
    rfl
  | cons y ys ih =>
    intro x
    simp only [List.foldl_cons]
    by_cases hxy : val x < val y
    · have hstep : py_step val x y = y := if_pos hxy
      have hpred : (fun v => (x :: y :: ys).all (fun w => decide (val w ≤ val v)))
          = fun v => (y :: ys).all (fun w => decide (val w ≤ val v)) := by
        funext v
        simp only [List.all_cons]
        by_cases hyv : val y ≤ val v
        · have hxv : val x ≤ val v := le_of_lt (lt_of_lt_of_le hxy hyv)
          simp [hxv]
        · simp [hyv]
      rw [hstep, hpred, List.find?_cons_of_neg]
      · exact ih y
      · simp only [List.all_cons, Bool.and_eq_true, decide_eq_true_eq]
        intro h
        exact absurd h.1 (not_le.mpr hxy)
    · have hyx : val y ≤ val x := le_of_not_lt hxy
      have hstep : py_step val x y = x := if_neg hxy
      have hpred : (fun v => (x :: y :: ys).all (fun w => decide (val w ≤ val v)))
          = fun v => (x :: ys).all (fun w => decide (val w ≤ val v)) := by
        funext v
        simp only [List.all_cons]
        by_cases hxv : val x ≤ val v
        · have hyv : val y ≤ val v := le_trans hyx hxv
          simp [hxv, hyv]
        · simp [hxv]
      rw [hstep, hpred]
      by_cases hpx : ((x :: ys).all fun w => decide (val w ≤ val x)) = true
      · have h1 : ((x :: y :: ys).find? fun v => (x :: ys).all fun w => decide (val w ≤ val v)) = some x :=
          List.find?_cons_of_pos _ hpx
        have h2 : ((x :: ys).find? fun v => (x :: ys).all fun w => decide (val w ≤ val v)) = some x :=
          List.find?_cons_of_pos _ hpx
        rw [h1, ← h2]
        exact ih x
      · have hpy : ¬ ((x :: ys).all fun w => decide (val w ≤ val y)) = true := by
          intro h
          apply hpx
          rw [List.all_eq_true] at h ⊢
          intro w hw
          have hwy := h w hw
          simp only [decide_eq_true_eq] at hwy ⊢
          exact le_trans hwy hyx
        have h4 : ((x :: y :: ys).find? fun v => (x :: ys).all fun w => decide (val w ≤ val v)) =
            (y :: ys).find? fun v => (x :: ys).all fun w => decide (val w ≤ val v) :=
          List.find?_cons_of_neg _ hpx
        have h5 : ((y :: ys).find? fun v => (x :: ys).all fun w => decide (val w ≤ val v)) =
            ys.find? fun v => (x :: ys).all fun w => decide (val w ≤ val v) :=
          List.find?_cons_of_neg _ hpy
        have h3 : ((x :: ys).find? fun v => (x :: ys).all fun w => decide (val w ≤ val v)) =
            ys.find? fun v => (x :: ys).all fun w => decide (val w ≤ val v) :=
          List.find?_cons_of_neg _ hpx
        rw [h4, h5, ← h3]
        exact ih x

theorem py_max_by_eq_stable {α : Type} (val : α → Score) (xs : List α) :
    py_max_by val xs = xs.find? (fun v => xs.all (fun w => decide (val w ≤ val v))) := by
  cases xs with
  | nil => rfl
  | cons x t => exact py_max_foldl_find? val t x

/-- C8: in each axis sweep, `optimize_gp_params` selects the candidate value
with the maximal cross-validation score, and whenever several candidates tie
on that maximal score it selects the one listed earliest in the grid's
candidate order for that parameter (stable argmax): the sweep's outcome is
exactly the spec's stable argmax paired with its score. -/
theorem sweep_axis_selects_stable_argmax (cv : List Score → Score)
    (cands : List Score) (cur : List Score) (axis : Nat) :
    sweep_axis cv cands cur axis =
      (stable_argmax cands (fun v => cv (config_with cur axis v))).map
        (fun bv => (bv, cv (config_with cur axis bv))) := by
  have h := py_max_by_eq_stable (fun v => cv (config_with cur axis v)) cands
  unfold sweep_axis stable_argmax
  rw [← h]
  cases py_max_by (fun v => cv (config_with cur axis v)) cands <;> rfl

/-! ### Properties of the fold partitioner and the eligible set -/

theorem mem_test_fold {seed k n j i : Nat} :
    i ∈ test_fold seed k n j ↔ i < n ∧ fold_of seed k i = j := by
  simp [test_fold, List.mem_filter, List.mem_range]

theorem mem_train_fold {seed k n j i : Nat} :
    i ∈ train_fold seed k n j ↔ i < n ∧ fold_of seed k i ≠ j := by
  simp [train_fold, List.mem_filter, List.mem_range]

theorem kfold_split_pos_lt {seed k n : Nat} {pr : List Nat × List Nat}
    (h : pr ∈ kfold_split seed k n) :
    (∀ p ∈ pr.1, p < n) ∧ ∀ p ∈ pr.2, p < n := by
  rcases List.mem_map.mp h with ⟨j, _, rfl⟩
  constructor
  · intro p hp
    exact (mem_train_fold.mp hp).1
  · intro p hp
    exact (mem_test_fold.mp hp).1

theorem mem_not_unnameable {n : Nat} {r : List Int} {i : Nat} :
    i ∈ not_unnameable n (some r) ↔ i < n ∧ r.getD i 0 ≠ 0 := by
  simp [not_unnameable, List.mem_filter, List.mem_range]

theorem not_unnameable_getD_mem {n : Nat} {rel : Option (List Int)} {p : Nat}
    (h : p < (not_unnameable n rel).length) :
    (not_unnameable n rel).getD p 0 ∈ not_unnameable n rel := by
  rw [List.getD_eq_getElem _ _ h]
  exact List.getElem_mem h

/-- C3: neither evaluator ever fits or queries the predictor on a sample with
relevance value 0: every global train index and every global test index of
every fold handed to the predictor by `cross_validate_gp` or
`cross_validate_fewshot` lies in the eligible (nonzero-relevance) set. -/
theorem cv_never_touches_zero_relevance (r : List Int) (n k seed : Nat)
    (pr : List Nat × List Nat) (hpr : pr ∈ cv_fold_calls (some r) n k seed) :
    (∀ i ∈ pr.1, i ∈ not_unnameable n (some r) ∧ r.getD i 0 ≠ 0) ∧
      ∀ i ∈ pr.2, i ∈ not_unnameable n (some r) ∧ r.getD i 0 ≠ 0 := by
  rcases List.mem_map.mp hpr with ⟨pp, hpp, rfl⟩
  have hlt := kfold_split_pos_lt hpp
  constructor
  · intro i hi
    rcases List.mem_map.mp hi with ⟨p, hp, rfl⟩
    have hmem := not_unnameable_getD_mem (hlt.1 p hp)
    exact ⟨hmem, (mem_not_unnameable.mp hmem).2⟩
  · intro i hi
    rcases List.mem_map.mp hi with ⟨p, hp, rfl⟩
    have hmem := not_unnameable_getD_mem (hlt.2 p hp)
    exact ⟨hmem, (mem_not_unnameable.mp hmem).2⟩

/-- Witness for C3 at a concrete relevance vector, fold count and seed. -/
theorem cv_never_touches_zero_relevance_witness :
    (([2], [0, 4]) ∈ cv_fold_calls (some [1, 0, -1, 0, 1]) 5 2 0) ∧
      ((∀ i ∈ ([2] : List Nat), i ∈ not_unnameable 5 (some [1, 0, -1, 0, 1]) ∧
          ([1, 0, -1, 0, 1] : List Int).getD i 0 ≠ 0) ∧
        ∀ i ∈ ([0, 4] : List Nat), i ∈ not_unnameable 5 (some [1, 0, -1, 0, 1]) ∧
          ([1, 0, -1, 0, 1] : List Int).getD i 0 ≠ 0) :=
  ⟨by decide,
    cv_never_touches_zero_relevance [1, 0, -1, 0, 1] 5 2 0 ([2], [0, 4]) (by decide)⟩

/-! ### The pooled prediction array is written exactly once per entry -/

theorem countP_range_eq_one {k m : Nat} (h : m < k) :
    ((List.range k).countP fun j => decide (m = j)) = 1 := by
  induction k with
  | zero => omega
  | succ k ih =>
    rw [List.range_succ, List.countP_append]
    by_cases hm : m < k
    · have h0 : (List.countP (fun j => decide (m = j)) [k]) = 0 := by
        have hne : m ≠ k := by omega
        simp [List.countP_cons, hne]
      rw [ih hm, h0]
    · have hmk : m = k := by omega
      subst hmk
      have h0 : ((List.range m).countP fun j => decide (m = j)) = 0 := by
        rw [List.countP_eq_zero]
        intro a ha
        have := List.mem_range.mp ha
        simp
        omega
      rw [h0]
      simp [List.countP_cons]

theorem kfold_countP_test {seed k n p : Nat} (hk : 0 < k) (hp : p < n) :
    ((kfold_split seed k n).countP fun pr => decide (p ∈ pr.2)) = 1 := by
  unfold kfold_split
  rw [List.countP_map]
  have hcongr : ((List.range k).countP
      ((fun pr : List Nat × List Nat => decide (p ∈ pr.2)) ∘
        fun j => (train_fold seed k n j, test_fold seed k n j))) =
      (List.range k).countP fun j => decide (fold_of seed k p = j) := by
    apply List.countP_congr
    intro j _
    simp only [Function.comp_apply, decide_eq_true_eq]
    rw [mem_test_fold]
    constructor
    · intro hj
      exact hj.2
    · intro hj
      exact ⟨hp, hj⟩
  rw [hcongr]
  exact countP_range_eq_one (Nat.mod_lt _ hk)

theorem kfold_cover {seed k n p : Nat} (hk : 0 < k) (hp : p < n) :
    ∃ pr ∈ kfold_split seed k n, p ∈ pr.2 := by
  refine ⟨(train_fold seed k n (fold_of seed k p), test_fold seed k n (fold_of seed k p)), ?_, ?_⟩
  · exact List.mem_map.mpr ⟨fold_of seed k p, List.mem_range.mpr (Nat.mod_lt _ hk), rfl⟩
  · exact mem_test_fold.mpr ⟨hp, rfl⟩

theorem sum_map_ite_eq_countP (m : Nat) (l : List Nat) :
    (l.map (fun j => if m = j then (1 : Nat) else 0)).sum =
      l.countP (fun j => decide (m = j)) := by
  induction l with
  | nil => rfl
  | cons a t ih =>
    rw [List.map_cons, List.sum_cons, List.countP_cons, ih]
    by_cases h : m = a
    · simp [h, Nat.add_comm]
    · simp [h]

theorem test_fold_nodup (seed k n j : Nat) : (test_fold seed k n j).Nodup :=
  List.Nodup.filter _ (List.nodup_range n)

theorem kfold_write_count {seed k n p : Nat} (hk : 0 < k) (hp : p < n) :
    ((kfold_split seed k n).map (fun pr => pr.2.count p)).sum = 1 := by
  unfold kfold_split
  rw [List.map_map]
  have hcongr : (List.map ((fun pr : List Nat × List Nat => pr.2.count p) ∘
      fun j => (train_fold seed k n j, test_fold seed k n j)) (List.range k)) =
      (List.range k).map (fun j => if fold_of seed k p = j then 1 else 0) := by
    apply List.map_congr_left
    intro j _
    simp only [Function.comp_apply]
    by_cases h : fold_of seed k p = j
    · rw [if_pos h]
      exact List.count_eq_one_of_mem (test_fold_nodup seed k n j)
        (mem_test_fold.mpr ⟨hp, h⟩)
    · rw [if_neg h]
      exact List.count_eq_zero_of_not_mem (fun hmem => h (mem_test_fold.mp hmem).2)
  rw [hcongr, sum_map_ite_eq_countP]
  exact countP_range_eq_one (Nat.mod_lt _ hk)

theorem write_pairs_cons (arr : List (Option Score)) (pv : Nat × Score)
    (t : List (Nat × Score)) :
    write_pairs arr (pv :: t) = write_pairs (arr.set pv.1 (some pv.2)) t := rfl

theorem write_pairs_length (l : List (Nat × Score)) :
    ∀ arr : List (Option Score), (write_pairs arr l).length = arr.length := by
  induction l with
  | nil => intro arr; rfl
  | cons pv t ih =>
    intro arr
    rw [write_pairs_cons, ih]
    exact List.length_set arr pv.1 _

theorem write_pairs_some (l : List (Nat × Score)) :
    ∀ (arr : List (Option Score)) (p : Nat), (∃ q, arr[p]? = some (some q)) →
      ∃ q, (write_pairs arr l)[p]? = some (some q) := by
  induction l with
  | nil => intro arr p h; exact h
  | cons pv t ih =>
    intro arr p h
    rw [write_pairs_cons]
    apply ih
    rcases h with ⟨q, hq⟩
    have hlt : p < arr.length := by
      rcases List.getElem?_eq_some.mp hq with ⟨hl, _⟩
      exact hl
    by_cases hpe : pv.1 = p
    · subst hpe
      exact ⟨pv.2, by rw [List.getElem?_set]; simp [hlt]⟩
    · exact ⟨q, by rw [List.getElem?_set]; simp [hpe]; exact hq⟩

theorem write_pairs_mem (l : List (Nat × Score)) :
    ∀ (arr : List (Option Score)) (p : Nat), p < arr.length →
      p ∈ l.map Prod.fst → ∃ q, (write_pairs arr l)[p]? = some (some q) := by
  induction l with
  | nil =>
    intro arr p _ hm
    simp at hm
  | cons pv t ih =>
    intro arr p hp hm
    rw [write_pairs_cons]
    rcases List.mem_cons.mp hm with h1 | h1
    · apply write_pairs_some
      refine ⟨pv.2, ?_⟩
      rw [List.getElem?_set]
      simp [h1.symm, hp]
    · exact ih _ p (by rw [List.length_set]; exact hp) h1

theorem write_scores_full (pos : List Nat) (vals : List Score)
    (arr : List (Option Score)) (p : Nat) (hlen : vals.length = pos.length)
    (hp : p < arr.length) (hmem : p ∈ pos) :
    ∃ q, (write_scores arr pos vals)[p]? = some (some q) := by
  apply write_pairs_mem
  · exact hp
  · rw [List.map_fst_zip pos vals (le_of_eq hlen.symm)]
    exact hmem

theorem pooled_fold_some (pred : GPPredict) (gp_params : List (String × Score))
    (rel : Option (List Int)) (y : List Score) (elig : List Nat)
    (hpred : ∀ g f t q, (pred g f t q).length = q.length)
    (folds : List (List Nat × List Nat)) :
    ∀ (arr : List (Option Score)) (p : Nat), p < arr.length →
      ((∃ pr ∈ folds, p ∈ pr.2) ∨ ∃ q, arr[p]? = some (some q)) →
      ∃ q, (folds.foldl
        (fun arr pr => write_scores arr pr.2
          (pred gp_params (fold_global elig pr).1 (fit_targets rel y elig pr.1)
            (fold_global elig pr).2)) arr)[p]? = some (some q) := by
  induction folds with
  | nil =>
    intro arr p _ h
    rcases h with h | h
    · rcases h with ⟨pr, hpr, _⟩
      simp at hpr
    · exact h
  | cons f t ih =>
    intro arr p hp h
    simp only [List.foldl_cons]
    have hlen1 : (write_scores arr f.2
        (pred gp_params (fold_global elig f).1 (fit_targets rel y elig f.1)
          (fold_global elig f).2)).length = arr.length := write_pairs_length _ arr
    have hvals : (pred gp_params (fold_global elig f).1 (fit_targets rel y elig f.1)
        (fold_global elig f).2).length = f.2.length := by
      rw [hpred]
      exact List.length_map f.2 _
    rcases h with h | h
    · rcases h with ⟨pr, hpr, hmem⟩
      rcases List.mem_cons.mp hpr with h2 | h2
      · subst h2
        exact ih _ p (by rw [hlen1]; exact hp)
          (Or.inr (write_scores_full _ _ _ _ hvals hp hmem))
      · exact ih _ p (by rw [hlen1]; exact hp) (Or.inl ⟨pr, h2, hmem⟩)
    · exact ih _ p (by rw [hlen1]; exact hp) (Or.inr (write_pairs_some _ _ _ h))

/-- C4: in `cross_validate_gp` the k folds' test sets are mutually disjoint
and collectively cover the eligible positions exactly: each position lies in
exactly one fold's test side, the total number of writes it receives across
all folds is exactly one, and a position lies in some test side exactly when
it is an eligible position — so every entry of the pooled prediction array
has been written exactly once, and hence is initialised, before the
aggregate metric is computed. -/
theorem pooled_scores_each_entry_once (pred : GPPredict)
    (gp_params : List (String × Score)) (rel : Option (List Int))
    (y : List Score) (k seed : Nat) (elig : List Nat)
    (hpred : ∀ g f t q, (pred g f t q).length = q.length) (hk : 0 < k) :
    (∀ p, p < elig.length →
      ((kfold_split seed k elig.length).countP fun pr => decide (p ∈ pr.2)) = 1) ∧
    (∀ p, p < elig.length →
      ((kfold_split seed k elig.length).map (fun pr => pr.2.count p)).sum = 1) ∧
    (∀ p, (∃ pr ∈ kfold_split seed k elig.length, p ∈ pr.2) ↔ p < elig.length) ∧
    ∀ p, p < elig.length →
      ∃ q, (pooled_scores pred gp_params rel y k seed elig)[p]? = some (some q) := by
  refine ⟨?_, ?_, ?_, ?_⟩
  · intro p hp
    exact kfold_countP_test hk hp
  · intro p hp
    exact kfold_write_count hk hp
  · intro p
    constructor
    · intro h
      rcases h with ⟨pr, hpr, hmem⟩
      exact (kfold_split_pos_lt hpr).2 p hmem
    · intro hp
      exact kfold_cover hk hp
  · intro p hp
    unfold pooled_scores
    apply pooled_fold_some pred gp_params rel y elig hpred
    · rw [List.length_replicate]
      exact hp
    · exact Or.inl (kfold_cover hk hp)

/-- Witness for C4 at a concrete predictor, relevance vector and fold count. -/
theorem pooled_scores_each_entry_once_witness :
    (∀ p, p < (not_unnameable 5 (some [1, 0, -1, 0, 1])).length →
      ((kfold_split 0 2 (not_unnameable 5 (some [1, 0, -1, 0, 1])).length).countP
        fun pr => decide (p ∈ pr.2)) = 1) ∧
    (∀ p, p < (not_unnameable 5 (some [1, 0, -1, 0, 1])).length →
      ((kfold_split 0 2 (not_unnameable 5 (some [1, 0, -1, 0, 1])).length).map
        (fun pr => pr.2.count p)).sum = 1) ∧
    (∀ p, (∃ pr ∈ kfold_split 0 2 (not_unnameable 5 (some [1, 0, -1, 0, 1])).length,
        p ∈ pr.2) ↔ p < (not_unnameable 5 (some [1, 0, -1, 0, 1])).length) ∧
    ∀ p, p < (not_unnameable 5 (some [1, 0, -1, 0, 1])).length →
      ∃ q, (pooled_scores (fun _ _ _ q => q.map (fun _ => (0 : Score))) []
        (some [1, 0, -1, 0, 1]) [] 2 0 (not_unnameable 5 (some [1, 0, -1, 0, 1])))[p]? =
        some (some q) :=
  pooled_scores_each_entry_once (fun _ _ _ q => q.map (fun _ => (0 : Score))) []
    (some [1, 0, -1, 0, 1]) [] 2 0 (not_unnameable 5 (some [1, 0, -1, 0, 1]))
    (fun _ _ _ q => List.length_map q _) (by decide)

/-! ### The few-shot evaluator is the mean of exactly k per-fold scores -/

theorem map_range_getD {α β : Type} (d : α) (f : α → β) :
    ∀ l : List α, ((List.range l.length).map fun j => f (l.getD j d)) = l.map f := by
  intro l
  induction l with
  | nil => rfl
  | cons x t ih =>
    rw [List.length_cons, List.range_succ_eq_map, List.map_cons, List.map_map]
    rw [List.getD_cons_zero]
    have hcomp : (((fun j => f ((x :: t).getD j d)) ∘ Nat.succ)) =
        fun j => f (t.getD j d) := by
      funext j
      simp [List.getD_cons_succ]
    rw [hcomp, ih]
    rfl

theorem kfold_split_length (seed k n : Nat) : (kfold_split seed k n).length = k := by
  unfold kfold_split
  rw [List.length_map, List.length_range]

theorem fewshot_fold_scores_eq_map (pred : GPPredict)
    (ap : List Int → List Score → Score)
    (rmse : List Score → List Score → Score) (y : List Score) (n : Nat)
    (rel : Option (List Int)) (gp_params : List (String × Score))
    (k seed : Nat) :
    fewshot_fold_scores pred ap rmse y n rel gp_params k seed =
      (kfold_split seed k (not_unnameable n rel).length).map
        (fewshot_single_fold pred ap rmse y rel gp_params (not_unnameable n rel)) := rfl

/-- C5: `cross_validate_fewshot` returns exactly the arithmetic mean of
`n_folds` per-fold scores, each per-fold score obtained by fitting the
predictor on the fold's test partition and evaluating it, with the task
metric, on the fold's train partition — there is no pooling of predictions
across folds. -/
theorem fewshot_is_mean_of_fold_scores (pred : GPPredict)
    (ap : List Int → List Score → Score)
    (rmse : List Score → List Score → Score) (y : List Score) (n : Nat)
    (rel : Option (List Int)) (gp_params : List (String × Score))
    (k seed : Nat) :
    cross_validate_fewshot_core pred ap rmse y n rel gp_params k seed =
      fewshot_claim_score pred ap rmse y n rel gp_params k seed ∧
    (fewshot_fold_scores pred ap rmse y n rel gp_params k seed).length = k := by
  have hsplit : (kfold_split seed k (not_unnameable n rel).length).length = k :=
    kfold_split_length seed k _
  have hlen : (fewshot_fold_scores pred ap rmse y n rel gp_params k seed).length = k := by
    rw [fewshot_fold_scores_eq_map, List.length_map, hsplit]
  refine ⟨?_, hlen⟩
  have hmap : ((List.range k).map fun j =>
      fewshot_single_fold pred ap rmse y rel gp_params (not_unnameable n rel)
        ((kfold_split seed k (not_unnameable n rel).length).getD j ([], []))) =
      (kfold_split seed k (not_unnameable n rel).length).map
        (fewshot_single_fold pred ap rmse y rel gp_params (not_unnameable n rel)) := by
    have h := map_range_getD ([], [])
      (fewshot_single_fold pred ap rmse y rel gp_params (not_unnameable n rel))
      (kfold_split seed k (not_unnameable n rel).length)
    rw [hsplit] at h
    exact h
  unfold cross_validate_fewshot_core fewshot_claim_score
  dsimp only
  rw [hmap, ← fewshot_fold_scores_eq_map, hlen]

/-! ### Structure of one optimizer iteration -/

theorem bp_le_refl (a : Option Score) : bp_le a a = true := by
  cases a with
  | none => rfl
  | some x => simp [bp_le]

theorem bp_le_trans {a b c : Option Score} (h1 : bp_le a b = true)
    (h2 : bp_le b c = true) : bp_le a c = true := by
  cases a with
  | none => rfl
  | some x =>
    cases b with
    | none => simp [bp_le] at h1
    | some y =>
      cases c with
      | none => simp [bp_le] at h2
      | some z =>
        simp [bp_le] at h1 h2 ⊢
        exact le_trans h1 h2

theorem lt_best_false_bp_le {sc : Score} {bp : Option Score}
    (h : lt_best sc bp = false) : bp_le bp (some sc) = true := by
  cases bp with
  | none => rfl
  | some b =>
    simp [lt_best] at h
    simp [bp_le]
    exact h

theorem opt_step_shape (cv : List Score → Score)
    (grid : List (String × List Score)) (s s1 : OptState)
    (h : opt_step cv grid s = .next s1 ∨ opt_step cv grid s = .broke s1) :
    (s1 = s ∧ ∃ bv sc, sweep_axis cv (grid.getD s.changing_param ("", [])).2
        s.cur_params s.changing_param = some (bv, sc) ∧
        lt_best sc s.best_perf = true) ∨
    ∃ bv sc, sweep_axis cv (grid.getD s.changing_param ("", [])).2
        s.cur_params s.changing_param = some (bv, sc) ∧
      lt_best sc s.best_perf = false ∧ s1.best_perf = some sc := by
  have hh : opt_step cv grid s = .next s1 ∨ opt_step cv grid s = .broke s1 := h
  unfold opt_step at hh
  dsimp only at hh
  cases hsw : sweep_axis cv (grid.getD s.changing_param ("", [])).2
      s.cur_params s.changing_param with
  | none =>
    rw [hsw] at hh
    dsimp only at hh
    rcases hh with hh | hh <;> cases hh
  | some p =>
    obtain ⟨bv, sc⟩ := p
    rw [hsw] at hh
    dsimp only at hh
    by_cases hlt : lt_best sc s.best_perf = true
    · rw [if_pos hlt] at hh
      rcases hh with hh | hh
      · cases hh
      · left
        injection hh with hh1
        exact ⟨hh1.symm, bv, sc, rfl, hlt⟩
    · have hlt2 : lt_best sc s.best_perf = false := by
        simp at hlt
        exact hlt
      rw [if_neg hlt] at hh
      right
      refine ⟨bv, sc, rfl, hlt2, ?_⟩
      by_cases hm : grid.length < 2
      · rw [if_pos hm] at hh
        rcases hh with hh | hh
        · cases hh
        · injection hh with hh1
          rw [← hh1]
      · rw [if_neg hm] at hh
        rcases hh with hh | hh
        · injection hh with hh1
          rw [← hh1]
        · cases hh

theorem opt_step_bp_mono (cv : List Score → Score)
    (grid : List (String × List Score)) (s s1 : OptState)
    (h : opt_step cv grid s = .next s1 ∨ opt_step cv grid s = .broke s1) :
    bp_le s.best_perf s1.best_perf = true := by
  rcases opt_step_shape cv grid s s1 h with ⟨h1, _⟩ | ⟨_, sc, _, hlt, hbp⟩
  · subst h1
    exact bp_le_refl _
  · rw [hbp]
    exact lt_best_false_bp_le hlt

theorem opt_loop_bp_mono (cv : List Score → Score)
    (grid : List (String × List Score)) :
    ∀ (fuel : Nat) (s s1 : OptState), opt_loop cv grid fuel s = some s1 →
      bp_le s.best_perf s1.best_perf = true := by
  intro fuel
  induction fuel with
  | zero =>
    intro s s1 h
    cases h
  | succ fuel ih =>
    intro s s1 h
    unfold opt_loop at h
    by_cases hc : s.changed.any id = true
    · rw [if_pos hc] at h
      cases hst : opt_step cv grid s with
      | err =>
        rw [hst] at h
        cases h
      | broke s2 =>
        rw [hst] at h
        injection h with h2
        rw [← h2]
        exact opt_step_bp_mono cv grid s s2 (Or.inr hst)
      | next s2 =>
        rw [hst] at h
        exact bp_le_trans (opt_step_bp_mono cv grid s s2 (Or.inl hst)) (ih s2 s1 h)
    · rw [if_neg hc] at h
      injection h with h2
      rw [← h2]
      exact bp_le_refl _

/-- C9: best-performance-so-far is monotonically non-decreasing throughout a
run: across any single accepted iteration, and hence across any completed
stretch of the loop, the best-so-far value (with the initial negative
infinity at the bottom) never decreases. -/
theorem best_perf_monotone (cv : List Score → Score)
    (grid : List (String × List Score)) (fuel : Nat) (s s1 : OptState)
    (h : opt_loop cv grid fuel s = some s1 ∨ opt_step cv grid s = .next s1 ∨
      opt_step cv grid s = .broke s1) :
    bp_le s.best_perf s1.best_perf = true := by
  rcases h with h | h
  · exact opt_loop_bp_mono cv grid fuel s s1 h
  · exact opt_step_bp_mono cv grid s s1 h

/-- Witness for C9 on a concrete one-parameter run. -/
theorem best_perf_monotone_witness :
    bp_le (init_state [("a", [1])] (fun _ => 5)).best_perf
      (OptState.mk [1] [true] 0 [([1], 0)] (some 0)).best_perf = true :=
  best_perf_monotone (fun _ => 0) [("a", [1])] 3 (init_state [("a", [1])] (fun _ => 5))
    (OptState.mk [1] [true] 0 [([1], 0)] (some 0)) (Or.inr (Or.inr (by decide)))

/-- C2: whenever the best candidate's score on the current axis is strictly
below best-performance-so-far, the sweep stops immediately — the loop step
breaks with the state, and hence the history, unchanged — and the returned
configuration is the history entry with the maximal recorded score, which
need not be the chronologically last one (ties resolve to the earliest
entry). -/
theorem regression_stop_returns_best_entry (cv : List Score → Score)
    (grid : List (String × List Score)) (s : OptState) (fuel : Nat)
    (bv sc b : Score)
    (hsw : sweep_axis cv (grid.getD s.changing_param ("", [])).2 s.cur_params
      s.changing_param = some (bv, sc))
    (hbp : s.best_perf = some b) (hlt : sc < b) :
    opt_step cv grid s = .broke s ∧
    opt_loop cv grid (fuel + 1) s = some s ∧
    (s.perf ≠ [] → ∃ e, e ∈ s.perf ∧ select_best s.perf = some e.1 ∧
      ∀ e2 ∈ s.perf, e2.2 ≤ e.2) := by
  have hltb : lt_best sc s.best_perf = true := by
    rw [hbp]
    simp [lt_best]
    exact hlt
  have hstep : opt_step cv grid s = .broke s := by
    unfold opt_step
    dsimp only
    rw [hsw]
    dsimp only
    rw [if_pos hltb]
  refine ⟨hstep, ?_, ?_⟩
  · unfold opt_loop
    by_cases hc : s.changed.any id = true
    · rw [if_pos hc, hstep]
    · rw [if_neg hc]
  · intro hne
    cases hperf : s.perf with
    | nil => exact absurd hperf hne
    | cons e0 rest =>
      refine ⟨rest.foldl (py_step (fun e => e.2)) e0, ?_, ?_, ?_⟩
      · exact py_max_foldl_mem _ rest e0
      · unfold select_best py_max_by
        rfl
      · intro e2 he2
        exact py_max_foldl_le (fun e => e.2) rest e0 e2 he2

/-- Witness for C2 on a concrete regression-triggered stop. -/
theorem regression_stop_returns_best_entry_witness :
    opt_step (fun _ => 0) [("a", [5])] (OptState.mk [2] [true] 0 [([2], 1)] (some 1)) =
      .broke (OptState.mk [2] [true] 0 [([2], 1)] (some 1)) ∧
    opt_loop (fun _ => 0) [("a", [5])] (0 + 1)
      (OptState.mk [2] [true] 0 [([2], 1)] (some 1)) =
      some (OptState.mk [2] [true] 0 [([2], 1)] (some 1)) ∧
    ((OptState.mk [2] [true] 0 [([2], 1)] (some 1)).perf ≠ [] →
      ∃ e, e ∈ (OptState.mk [2] [true] 0 [([2], 1)] (some 1)).perf ∧
        select_best (OptState.mk [2] [true] 0 [([2], 1)] (some 1)).perf = some e.1 ∧
        ∀ e2 ∈ (OptState.mk [2] [true] 0 [([2], 1)] (some 1)).perf, e2.2 ≤ e.2) :=
  regression_stop_returns_best_entry (fun _ => 0) [("a", [5])]
    (OptState.mk [2] [true] 0 [([2], 1)] (some 1)) 0 5 0 1 (by decide) rfl (by decide)

theorem sweep_axis_ge (cv : List Score → Score) (cands cur : List Score)
    (axis : Nat) (bv sc v : Score) (hv : v ∈ cands)
    (hsw : sweep_axis cv cands cur axis = some (bv, sc)) :
    cv (config_with cur axis v) ≤ sc := by
  cases cands with
  | nil => cases hv
  | cons c ct =>
    unfold sweep_axis py_max_by at hsw
    dsimp only at hsw
    simp only [Option.some.injEq, Prod.mk.injEq] at hsw
    obtain ⟨hbv, hsc⟩ := hsw
    rw [← hsc]
    exact py_max_foldl_le (fun w => cv (config_with cur axis w)) ct c v hv

theorem opt_finish_inv (grid : List (String × List Score)) (relGiven : Bool)
    (s : OptState) (cfg : List (String × Score)) (sc : Score)
    (h : opt_finish grid relGiven s = some (cfg, sc)) :
    ∃ b, s.best_perf = some b ∧ sc = if relGiven then b else -b := by
  unfold opt_finish at h
  cases hsel : select_best s.perf with
  | none =>
    rw [hsel] at h
    cases h
  | some bp =>
    cases hbp : s.best_perf with
    | none =>
      rw [hsel, hbp] at h
      cases h
    | some b =>
      rw [hsel, hbp] at h
      dsimp only at h
      refine ⟨b, rfl, ?_⟩
      injection h with h1
      exact (congrArg Prod.snd h1).symm

theorem init_state_best_perf (grid : List (String × List Score))
    (init : String → Score) : (init_state grid init).best_perf = none := rfl

theorem init_state_cur (grid : List (String × List Score))
    (init : String → Score) :
    (init_state grid init).cur_params = init_config grid init := rfl

/-- C1 (amended): provided the initial value of the first grid parameter is
among that parameter's candidates, the score returned by
`optimize_gp_params`, read on the evaluator's own higher-is-better scale
(the returned score for retrieval, its negation for regression), is at
least the score of the supplied initial configuration evaluated alone with
the same evaluator. -/
theorem returned_score_ge_init_score (cv : List Score → Score)
    (g0 : String × List Score) (grest : List (String × List Score))
    (init : String → Score) (relGiven : Bool) (fuel : Nat)
    (cfg : List (String × Score)) (sc : Score)
    (hmem : init g0.1 ∈ g0.2)
    (hrun : optimize_gp_params cv (g0 :: grest) init relGiven fuel = some (cfg, sc)) :
    cv (init_config (g0 :: grest) init) ≤ (if relGiven then sc else -sc) := by
  unfold optimize_gp_params at hrun
  rcases Option.bind_eq_some.mp hrun with ⟨sfin, hloop, hfin⟩
  rcases opt_finish_inv _ _ _ _ _ hfin with ⟨b, hbfin, hscb⟩
  have hgoal : (if relGiven then sc else -sc) = b := by
    cases relGiven
    · rw [hscb]
      simp
    · rw [hscb]
      simp
  rw [hgoal]
  cases fuel with
  | zero => cases hloop
  | succ fuel =>
    have hany : (init_state (g0 :: grest) init).changed.any id = true := rfl
    unfold opt_loop at hloop
    rw [if_pos hany] at hloop
    have hfirst : ∀ s1 : OptState,
        (opt_step cv (g0 :: grest) (init_state (g0 :: grest) init) = .next s1 ∨
          opt_step cv (g0 :: grest) (init_state (g0 :: grest) init) = .broke s1) →
        ∃ sc1, s1.best_perf = some sc1 ∧ cv (init_config (g0 :: grest) init) ≤ sc1 := by
      intro s1 hstep
      rcases opt_step_shape cv (g0 :: grest) (init_state (g0 :: grest) init) s1 hstep with
        ⟨_, _, sc1, _, hlt⟩ | ⟨bv, sc1, hsw, _, hbp1⟩
      · rw [init_state_best_perf] at hlt
        simp [lt_best] at hlt
      · refine ⟨sc1, hbp1, ?_⟩
        have hcw : config_with (init_state (g0 :: grest) init).cur_params
            (init_state (g0 :: grest) init).changing_param (init g0.1) =
            init_config (g0 :: grest) init := rfl
        have := sweep_axis_ge cv ((g0 :: grest).getD
            (init_state (g0 :: grest) init).changing_param ("", [])).2
          (init_state (g0 :: grest) init).cur_params
          (init_state (g0 :: grest) init).changing_param bv sc1 (init g0.1) hmem hsw
        rw [hcw] at this
        exact this
    cases hstep : opt_step cv (g0 :: grest) (init_state (g0 :: grest) init) with
    | err =>
      rw [hstep] at hloop
      cases hloop
    | broke s1 =>
      rw [hstep] at hloop
      injection hloop with h1
      rcases hfirst s1 (Or.inr hstep) with ⟨sc1, hbp1, hge⟩
      rw [h1, hbfin] at hbp1
      injection hbp1 with h2
      rw [h2]
      exact hge
    | next s1 =>
      rw [hstep] at hloop
      rcases hfirst s1 (Or.inl hstep) with ⟨sc1, hbp1, hge⟩
      have hmono := opt_loop_bp_mono cv (g0 :: grest) fuel s1 sfin hloop
      rw [hbp1, hbfin] at hmono
      simp [bp_le] at hmono
      exact le_trans hge hmono

/-- C1 is false as literally stated: with grid a ↦ [0], initial value
a = 7 and an evaluator scoring a configuration by its value of a, the run
returns score 0 while the initial configuration alone evaluates to 7, which
is not ≤ 0. -/
theorem returned_score_ge_init_score_counterexample :
    optimize_gp_params (fun c => c.headD 0) [("a", [0])] (fun _ => 7) true 3 =
      some ([("a", 0)], 0) ∧
    (fun c : List Score => c.headD 0) (init_config [("a", [0])] (fun _ => 7)) = 7 ∧
    ¬ ((7 : Score) ≤ 0) :=
  ⟨by decide, by decide, by decide⟩

/-- Witness for C1 (amended) on a concrete run whose initial value is on the
grid. -/
theorem returned_score_ge_init_score_witness :
    ((fun _ => (1 : Score)) ("a", [(1 : Score), 2]).1 ∈ ("a", [(1 : Score), 2]).2) ∧
    (fun c : List Score => c.headD 0) (init_config [("a", [1, 2])] (fun _ => 1)) ≤
      (if true then (2 : Score) else -2) :=
  ⟨by decide, returned_score_ge_init_score (fun c => c.headD 0) ("a", [1, 2]) []
    (fun _ => 1) true 3 [("a", 2)] 2 (by decide) (by decide)⟩

/-- C10: `optimize_gp_params` reads the supplied initial values only at the
parameter names of the grid: two initial-value assignments agreeing on every
grid parameter name produce identical runs, so a value supplied for a name
absent from the grid is never read and the external predictor keeps its own
constructor default for it. -/
theorem init_read_only_at_grid_names (cv : List Score → Score)
    (grid : List (String × List Score)) (init1 init2 : String → Score)
    (relGiven : Bool) (fuel : Nat) (h : ∀ g ∈ grid, init1 g.1 = init2 g.1) :
    optimize_gp_params cv grid init1 relGiven fuel =
      optimize_gp_params cv grid init2 relGiven fuel := by
  have hmap : init_config grid init1 = init_config grid init2 :=
    List.map_congr_left h
  unfold optimize_gp_params init_state
  rw [hmap]

/-- Witness for C10 with two initial assignments differing off the grid. -/
theorem init_read_only_at_grid_names_witness :
    optimize_gp_params (fun c => c.headD 0) [("a", [1])] (fun _ => 1) true 3 =
      optimize_gp_params (fun c => c.headD 0) [("a", [1])]
        (fun s => if s = "a" then 1 else 99) true 3 :=
  init_read_only_at_grid_names (fun c => c.headD 0) [("a", [1])] (fun _ => 1)
    (fun s => if s = "a" then 1 else 99) true 3 (by decide)

/-- C7: two runs with identical dataset, relevance, grid, initial values,
fold count and evaluator choice produce identical chosen configurations and
scores whatever the ambient random state is, because fold splitting in both
evaluators uses the fixed seed 0 rather than the ambient randomness — and
likewise each evaluator's own result is independent of the ambient state. -/
theorem optimize_gp_params_deterministic (pred : GPPredict)
    (ap : List Int → List Score → Score)
    (rmse : List Score → List Score → Score) (y : List Score) (n : Nat)
    (rel : Option (List Int)) (grid : List (String × List Score))
    (init : String → Score) (fewshot : Bool) (k fuel : Nat)
    (gp_params : List (String × Score)) (a1 a2 : Nat) :
    optimize_gp_params_checked pred ap rmse y n rel grid init fewshot k fuel a1 =
      optimize_gp_params_checked pred ap rmse y n rel grid init fewshot k fuel a2 ∧
    cross_validate_gp pred ap rmse y n rel gp_params k a1 =
      cross_validate_gp pred ap rmse y n rel gp_params k a2 ∧
    cross_validate_fewshot pred ap rmse y n rel gp_params k a1 =
      cross_validate_fewshot pred ap rmse y n rel gp_params k a2 :=
  ⟨rfl, rfl, rfl⟩

/-- C6: both evaluators fail with an error — and the composed optimizer run
propagates it and yields no score — whenever the requested class has no
eligible (nonzero-relevance) sample, or the fold count exceeds the number of
eligible samples, or the fold count is below 2. -/
theorem evaluators_error_on_bad_folds (pred : GPPredict)
    (ap : List Int → List Score → Score)
    (rmse : List Score → List Score → Score) (y : List Score) (n : Nat)
    (rel : Option (List Int)) (gp_params : List (String × Score))
    (grid : List (String × List Score)) (init : String → Score)
    (fewshot : Bool) (k fuel ambient : Nat)
    (hbad : k < 2 ∨ (not_unnameable n rel).length = 0 ∨
      (not_unnameable n rel).length < k) :
    (∃ msg, cross_validate_gp pred ap rmse y n rel gp_params k ambient = .error msg) ∧
    (∃ msg, cross_validate_fewshot pred ap rmse y n rel gp_params k ambient = .error msg) ∧
    ∃ msg, optimize_gp_params_checked pred ap rmse y n rel grid init fewshot k fuel ambient =
      .error msg := by
  have hinv : fold_split_invalid k (not_unnameable n rel).length = true := by
    unfold fold_split_invalid
    rcases hbad with h | h | h <;> simp [h]
  refine ⟨⟨"cross-validation failed: insufficient eligible samples for the requested folds", ?_⟩,
    ⟨"cross-validation failed: insufficient eligible samples for the requested folds", ?_⟩,
    ⟨"cross-validation failed: insufficient eligible samples for the requested folds", ?_⟩⟩
  · unfold cross_validate_gp
    rw [if_pos hinv]
  · unfold cross_validate_fewshot
    rw [if_pos hinv]
  · unfold optimize_gp_params_checked
    rw [if_pos hinv]

/-- Witness for C6: a class with no eligible sample (all-zero relevance). -/
theorem evaluators_error_on_bad_folds_witness :
    (∃ msg, cross_validate_gp (fun _ _ _ _ => []) (fun _ _ => 0) (fun _ _ => 0)
      [] 3 (some [0, 0, 0]) [] 10 7 = .error msg) ∧
    (∃ msg, cross_validate_fewshot (fun _ _ _ _ => []) (fun _ _ => 0) (fun _ _ => 0)
      [] 3 (some [0, 0, 0]) [] 10 7 = .error msg) ∧
    ∃ msg, optimize_gp_params_checked (fun _ _ _ _ => []) (fun _ _ => 0) (fun _ _ => 0)
      [] 3 (some [0, 0, 0]) [("a", [1])] (fun _ => 1) false 10 3 7 = .error msg :=
  evaluators_error_on_bad_folds (fun _ _ _ _ => []) (fun _ _ => 0) (fun _ _ => 0)
    [] 3 (some [0, 0, 0]) [] [("a", [1])] (fun _ => 1) false 10 3 7
    (Or.inr (Or.inl (by decide)))

end OptimizeParameters
